import Mathlib

/-!
Verification of the GrepMe command-line search tool (grepme.py) against its
natural-language specification.  The Python source is shallowly embedded:
the paginated message search generator becomes a fuel-indexed recursive
function over explicit pages, the HTTP layer becomes a status-code branch
returning `Except`, and the regex collaborator is abstracted as a function
from a string to the optional span of its first match, exactly the data the
program reads from it.
-/

set_option autoImplicit false

namespace Grepme

/-- ANSI escape constants declared at the top of grepme.py. -/
def GREEN : String := "\x1b[32m"

/-- ANSI red, inserted around the matched span when output is interactive. -/
def RED : String := "\x1b[31m"

/-- ANSI purple, used for author names. -/
def PURPLE : String := "\x1b[35m"

/-- ANSI reset. -/
def RESET : String := "\x1b[0m"

/-- A GroupMe message record, restricted to the fields grepme.py reads:
`id` (opaque ordered token, here a `Nat`), `text` (absent for uploads,
hence an `Option`), the author `name`, and `created_at`. -/
structure Message where
  id : Nat
  text : Option String
  name : String
  created_at : Nat
deriving DecidableEq

/-- Embeds `get` (grepme.py lines 17-26): a 2xx status returns the parsed
body, a 304 returns no body (`None` in Python), and any other status raises
`RuntimeError(response, "Got bad status code")`. -/
def get {α : Type} (status : Nat) (body : α) : Except String (Option α) :=
  if 200 ≤ status ∧ status < 300 then Except.ok (some body)
  else if status = 304 then Except.ok none
  else Except.error "Got bad status code"

/-- Embeds `get_messages` (lines 28-36): when the transport returns a body
the message list inside it is returned, and a `None` response (status 304)
is converted to the empty page. -/
def get_messages (status : Nat) (body : List Message) : Except String (List Message) :=
  match get status body with
  | Except.ok (some msgs) => Except.ok msgs
  | Except.ok none => Except.ok []
  | Except.error e => Except.error e

/-- Embeds `get_dm` (lines 38-48): identical shape to `get_messages`, the
direct-message list is extracted from the body and 304 becomes the empty
page. -/
def get_dm (status : Nat) (body : List Message) : Except String (List Message) :=
  match get status body with
  | Except.ok (some msgs) => Except.ok msgs
  | Except.ok none => Except.ok []
  | Except.error e => Except.error e

/-- Embeds the in-place highlighting of lines 67-70:
`text[:start] + RED + text[start:end] + RESET + text[end:]`. -/
def highlight (t : String) (s e : Nat) : String :=
  t.take s ++ RED ++ (t.drop s).take (e - s) ++ RESET ++ t.drop e

/-- Lines 61-66 of `search_messages`: a message is a match exactly when
its text is present (`message['text'] is None` skips uploads) and the
pattern finds a span in it (`regex.search`); returns the text together
with the span of the first match. -/
def matchText (regex : String → Option (Nat × Nat)) (m : Message) :
    Option (String × Nat × Nat) :=
  match m.text with
  | none => none
  | some t =>
    match regex t with
    | none => none
    | some (s, e) => some (t, s, e)

/-- Lines 67-70: when output is interactive the matched message's text is
rewritten in place with the color escape codes around the first match
span; otherwise the message is left untouched. -/
def maybeHighlight (interactive : Bool) (m : Message) (t : String) (s e : Nat) : Message :=
  if interactive then Message.mk m.id (some (highlight t s e)) m.name m.created_at
  else m

/-- Embeds the inner `for i, message in enumerate(buffer)` loop of
`search_messages` (lines 60-73).  `acc` is the already-scanned prefix in
reverse (mutated in place by the highlighting when `interactive`), `i` the
current index, and the third argument the unscanned suffix.  Returns the
list of yielded `(buffer, i)` pairs, each buffer being the snapshot of the
page at yield time, together with the final state of the page. -/
def scanPage (regex : String → Option (Nat × Nat)) (interactive : Bool) :
    List Message → Nat → List Message → List (List Message × Nat) × List Message
  | acc, _, [] => ([], acc.reverse)
  | acc, i, m :: rest =>
    match matchText regex m with
    | none => scanPage regex interactive (m :: acc) (i + 1) rest
    | some (t, s, e) =>
      let m2 := maybeHighlight interactive m t s e
      let res := scanPage regex interactive (m2 :: acc) (i + 1) rest
      ((acc.reverse ++ m2 :: rest, i) :: res.1, res.2)

/-- `buffer[-1]['id']` of line 74: the id of the oldest (last) message of a
page; 0 is a junk value for the empty page, on which the source never reads
it. -/
def oldestId (l : List Message) : Nat :=
  match l.getLast? with
  | some m => m.id
  | none => 0

/-- Outcome of running the `search_messages` generator to exhaustion:
the yielded `(buffer, index)` pairs, the error that aborted it (if any),
and the trace of `before_id` cursors passed to the page fetcher, one entry
per fetch call. -/
structure SearchRun where
  results : List (List Message × Nat)
  err : Option String
  trace : List (Option Nat)
deriving DecidableEq

/-- Embeds `search_messages` (lines 50-75).  The page fetcher is the
`get_function` collaborator: given the optional `before_id` cursor it
returns a page or signals a fetch error.  The loop is fuel-indexed because
the Python generator's termination depends on the remote history being
finite; every claim is settled with sufficient fuel for its source. -/
def search_messages (fetch : Option Nat → Except String (List Message))
    (regex : String → Option (Nat × Nat)) (interactive : Bool) :
    Nat → Option Nat → SearchRun
  | 0, _ => ⟨[], none, []⟩
  | fuel + 1, cursor =>
    match fetch cursor with
    | Except.error e => ⟨[], some e, [cursor]⟩
    | Except.ok buffer =>
      if buffer = [] then ⟨[], none, [cursor]⟩
      else
        let res := scanPage regex interactive [] 0 buffer
        let next := search_messages fetch regex interactive fuel (some (oldestId res.2))
        ⟨res.1 ++ next.results, next.err, cursor :: next.trace⟩

/-- Outcome of the per-conversation loops of `main` (lines 179-189):
the windows forwarded to the presenter, the fetch error that aborted the
run (if any), and how many conversations were actually searched. -/
structure RunAll where
  results : List (List Message × Nat)
  err : Option String
  searched : Nat

/-- Embeds the outer loops of `main` (lines 179-189): conversations are
searched one after the other in a single pass; a fetch error raised inside
`search_messages` propagates and ends the whole run. -/
def runConversations (regex : String → Option (Nat × Nat)) (interactive : Bool)
    (fuel : Nat) : List (Option Nat → Except String (List Message)) → RunAll
  | [] => ⟨[], none, 0⟩
  | src :: rest =>
    let r := search_messages src regex interactive fuel none
    match r.err with
    | some e => ⟨r.results, some e, 1⟩
    | none =>
      let rr := runConversations regex interactive fuel rest
      ⟨r.results ++ rr.results, rr.err, rr.searched + 1⟩

/-- A conversation record, restricted to the fields grepme.py reads. -/
structure Conv where
  id : String
  name : String
deriving DecidableEq

/-- Embeds the `while response != []` loop of `get_all_groups`
(lines 91-97).  `fetch` is the `/groups` endpoint: per-page size and the
optional 1-based page number (`None` on the first call, exactly as the
source omits the parameter there).  Returns the conversations yielded and
the trace of page arguments, one entry per fetch call. -/
def groupsLoop (fetch : Nat → Option Nat → List Conv) :
    Nat → Nat → List Conv → List Conv × List (Option Nat)
  | 0, _, _ => ([], [])
  | fuel + 1, page, response =>
    if response = [] then ([], [])
    else
      let next := groupsLoop fetch fuel (page + 1) (fetch 100 (some (page + 1)))
      (response ++ next.1, some (page + 1) :: next.2)

/-- Embeds `get_all_groups` for groups (lines 77-97): the first request is
made with `per_page=100` and no page number, then pages 2, 3, ... are
requested until a page comes back empty. -/
def get_all_groups (fetch : Nat → Option Nat → List Conv) (fuel : Nat) :
    List Conv × List (Option Nat) :=
  let r := groupsLoop fetch fuel 1 (fetch 100 none)
  (r.1, none :: r.2)

/-- Embeds the pre-parse scan of `main` (lines 132-138): walk `argv`,
stop at `--`, and fire on `--list` or `-l` unless the preceding argument
is `--group`.  `prev` carries the previously inspected argument. -/
def listScan : Option String → List String → Bool
  | _, [] => false
  | prev, a :: rest =>
    if a = "--" then false
    else if (a = "--list" ∨ a = "-l") ∧ prev ≠ some "--group" then true
    else listScan (some a) rest

/-- The condition under which `main` prints all group names and exits
before constructing the argument parser. -/
def listTriggered (argv : List String) : Bool :=
  listScan none argv

/-- The early phase of `main` (lines 131-138): when the list flag is
present, every conversation name is printed and the process exits with
code 0 (Python `exit()`); otherwise execution falls through to the
argument parser (`none`). -/
def mainEarlyPhase (argv : List String) (convs : List Conv) : Option (List String × Nat) :=
  if listTriggered argv then some (convs.map Conv.name, 0) else none

/-- Python slice-index normalisation for step 1: a negative index wraps
around the end of the list before being clamped at 0, a non-negative one
is clamped at the length. -/
def pySliceIndex (len : Nat) (x : Int) : Nat :=
  if x < 0 then ((len : Int) + x).toNat else min x.toNat len

/-- Python list slicing `l[a:b]` with CPython semantics (step 1). -/
def pySlice {α : Type} (l : List α) (a b : Int) : List α :=
  let s := pySliceIndex l.length a
  let e := pySliceIndex l.length b
  (l.drop s).take (e - s)

/-- Embeds the rendering loop of `print_message` (lines 108-113): the
messages printed for a match at index `i` are
`reversed(buffer[i - after : i + before + 1])`. -/
def print_message (buffer : List Message) (i before after : Nat) : List Message :=
  (pySlice buffer ((i : Int) - (after : Int)) ((i : Int) + (before : Int) + 1)).reverse

/-- Modelled from the spec: the context window the specification requires,
covering exactly the index range `[max(0, i - after), min(len - 1, i + before)]`
of the page, clamped at both page ends (listed here in page order, before
the display reversal). -/
def specContextWindow (buffer : List Message) (i before after : Nat) : List Message :=
  let lo := i - after
  let hi := min (buffer.length - 1) (i + before)
  (buffer.drop lo).take (hi + 1 - lo)

/-- The second argument `main` passes to `search_messages`: either a
compiled pattern (the group-conversation call on line 181 passes `regex`)
or the raw list of user-supplied text fragments (the direct-message call
on line 186 passes `args.text`). -/
inductive PatternArg : Type
  | compiled (r : String → Option (Nat × Nat))
  | rawList (l : List String)

/-- The search pattern used for a group conversation (line 181). -/
def groupSearchPattern (regex : String → Option (Nat × Nat)) (text : List String) :
    PatternArg :=
  PatternArg.compiled regex

/-- The search pattern used for a direct conversation (line 186). -/
def dmSearchPattern (regex : String → Option (Nat × Nat)) (text : List String) :
    PatternArg :=
  PatternArg.rawList text

/-- What happens when `search_messages` invokes `.search` on the pattern
argument it was handed: a compiled pattern yields its span, while a raw
Python list has no `search` attribute and raises. -/
def applyPattern : PatternArg → String → Except String (Option (Nat × Nat))
  | PatternArg.compiled r, s => Except.ok (r s)
  | PatternArg.rawList _, _ =>
      Except.error "AttributeError: list object has no attribute search"

/-- Embeds the color-mode resolution of `main` (lines 157-160 and
176-177): an explicit `--color` or `--no-color` flag wins, and otherwise
the code consults `isatty(stdin.fileno())`, the ttyness of standard
input. -/
def resolveColor (colorArg : Option Bool) (stdinTty : Bool) : Bool :=
  match colorArg with
  | some b => b
  | none => stdinTty

/-- Modelled from the spec: color defaults to whether the program output
is an interactive terminal. -/
def specResolveColor (colorArg : Option Bool) (stdoutTty : Bool) : Bool :=
  match colorArg with
  | some b => b
  | none => stdoutTty

/-- Concrete three-message page for exercising the context window. -/
def page3msgs : List Message :=
  [Message.mk 5 (some "foo") "alice" 10,
   Message.mk 4 (some "bar") "bob" 11,
   Message.mk 3 (some "foo baz") "carol" 12]

/-- A concrete pattern for the stub runs: the span of the first match of
the literal text `foo`, on the texts the stubs use. -/
def rFoo : String → Option (Nat × Nat) :=
  fun s => if s = "foo" then some (0, 3) else none

/-- Stub source for the C2 counterexample: one non-empty page, then the
empty page for every cursor. -/
def c2cFetch : Option Nat → Except String (List Message)
  | none => Except.ok [Message.mk 5 (some "foo") "alice" 10]
  | some _ => Except.ok []

/-- First page of the C2 witness stub (oldest id 4). -/
def c2wPg1 : List Message :=
  [Message.mk 5 (some "foo") "alice" 10, Message.mk 4 (some "bar") "bob" 11]

/-- Second page of the C2 witness stub (oldest id 3). -/
def c2wPg2 : List Message :=
  [Message.mk 3 (some "foo") "carol" 12]

/-- Stub source for the C2 witness: two non-empty pages keyed by the
oldest ids, then the empty page. -/
def c2wFetch : Option Nat → Except String (List Message)
  | none => Except.ok c2wPg1
  | some 4 => Except.ok c2wPg2
  | some _ => Except.ok []

/-- A conversation source whose every fetch succeeds with an empty page. -/
def c4GoodSrc : Option Nat → Except String (List Message) :=
  fun _ => Except.ok []

/-- A conversation source whose every fetch fails like a bad HTTP status. -/
def c4BadSrc : Option Nat → Except String (List Message) :=
  fun _ => Except.error "Got bad status code"

/-- Stub source for the C6 witness: one page holding a matching message
followed by a textless upload, then the empty page. -/
def c6Fetch : Option Nat → Except String (List Message)
  | none => Except.ok [Message.mk 5 (some "foo") "alice" 10, Message.mk 4 none "bob" 11]
  | some _ => Except.ok []

/-- A concrete conversation record for the C7 witness. -/
def c7Conv : Conv :=
  Conv.mk "42" "ACM"

/-- Stub enumeration source for the C7 witness: two full pages of 100
conversations (the first requested with no page number, the second with
page 2), then the empty page. -/
def c7Fetch : Nat → Option Nat → List Conv :=
  fun perPage page =>
    if perPage = 100 ∧ page = none then List.replicate 100 c7Conv
    else if perPage = 100 ∧ page = some 2 then List.replicate 100 c7Conv
    else []

/-- Stub source for the C10 witness: one page with a single matching
message, then the empty page. -/
def c10Fetch : Option Nat → Except String (List Message)
  | none => Except.ok [Message.mk 5 (some "foo") "alice" 10]
  | some _ => Except.ok []

/-- If dropping `i` elements of a list exposes `a :: rest`, then `a` sits
at index `i` and dropping one more element exposes `rest`. -/
theorem drop_eq_cons {α : Type} :
    ∀ (l : List α) (i : Nat) (a : α) (rest : List α),
      l.drop i = a :: rest → l[i]? = some a ∧ l.drop (i + 1) = rest := by
  intro l
  induction l with
  | nil =>
    intro i a rest h
    simp at h
  | cons x xs ih =>
    intro i a rest h
    cases i with
    | zero =>
      injection h with h1 h2
      subst h1; subst h2
      exact ⟨by simp, rfl⟩
    | succ n =>
      have := ih n a rest h
      exact ⟨by simpa using this.1, this.2⟩

/-- A successful `matchText` exposes the message text and the span the
pattern found in it. -/
theorem matchText_eq_some (regex : String → Option (Nat × Nat)) (m : Message)
    (t : String) (s e : Nat) (h : matchText regex m = some (t, s, e)) :
    m.text = some t ∧ regex t = some (s, e) := by
  cases hm : m.text with
  | none => simp [matchText, hm] at h
  | some t2 =>
    cases hr : regex t2 with
    | none => simp [matchText, hm, hr] at h
    | some se =>
      obtain ⟨s2, e2⟩ := se
      simp only [matchText, hm, hr, Option.some.injEq, Prod.mk.injEq] at h
      obtain ⟨rfl, rfl, rfl⟩ := h
      exact ⟨rfl, hr⟩

/-- Highlighting never changes a message id. -/
theorem maybeHighlight_id (interactive : Bool) (m : Message) (t : String) (s e : Nat) :
    (maybeHighlight interactive m t s e).id = m.id := by
  cases interactive <;> rfl

/-- With highlighting off a message is returned untouched. -/
theorem maybeHighlight_false (m : Message) (t : String) (s e : Nat) :
    maybeHighlight false m t s e = m := rfl

/-- With highlighting on the match span is wrapped in color codes. -/
theorem maybeHighlight_true (m : Message) (t : String) (s e : Nat) :
    maybeHighlight true m t s e
      = Message.mk m.id (some (highlight t s e)) m.name m.created_at := rfl

/-- Scanning a page only rewrites `text` fields: the ids of the final page
state are those of the prefix already scanned followed by the suffix. -/
theorem scanPage_snd_map_id (regex : String → Option (Nat × Nat)) (interactive : Bool) :
    ∀ (suffix acc : List Message) (i : Nat),
      ((scanPage regex interactive acc i suffix).2).map Message.id
        = (acc.reverse ++ suffix).map Message.id := by
  intro suffix
  induction suffix with
  | nil =>
    intro acc i
    simp [scanPage]
  | cons m rest ih =>
    intro acc i
    cases hmt : matchText regex m with
    | none =>
      rw [scanPage, hmt]
      rw [ih (m :: acc) (i + 1)]
      simp
    | some tse =>
      obtain ⟨t, s, e⟩ := tse
      rw [scanPage, hmt]
      simp only
      rw [ih (maybeHighlight interactive m t s e :: acc) (i + 1)]
      simp [maybeHighlight_id]

/-- The final page state after scanning has the same oldest id as the
fetched page: highlighting rewrites texts, never ids. -/
theorem oldestId_scanPage (regex : String → Option (Nat × Nat)) (interactive : Bool)
    (buffer : List Message) :
    oldestId ((scanPage regex interactive [] 0 buffer).2) = oldestId buffer := by
  have hid := scanPage_snd_map_id regex interactive buffer [] 0
  simp only [List.reverse_nil, List.nil_append] at hid
  have key : ∀ (l1 l2 : List Message),
      l1.map Message.id = l2.map Message.id → oldestId l1 = oldestId l2 := by
    intro l1 l2 h
    have h1 : (l1.map Message.id).getLast? = (l2.map Message.id).getLast? := by rw [h]
    rw [List.getLast?_map, List.getLast?_map] at h1
    unfold oldestId
    cases h2 : l1.getLast? with
    | none =>
      rw [h2] at h1
      cases h3 : l2.getLast? with
      | none => rfl
      | some m2 => rw [h3] at h1; simp at h1
    | some m1 =>
      rw [h2] at h1
      cases h3 : l2.getLast? with
      | none => rw [h3] at h1; simp at h1
      | some m2 =>
        rw [h3] at h1
        simp only [Option.map_some'] at h1
        simpa using h1
  exact key _ _ hid

/-- With highlighting off, every page snapshot yielded while scanning is
the untouched page itself. -/
theorem scanPage_false_yield (regex : String → Option (Nat × Nat)) :
    ∀ (suffix acc : List Message) (i : Nat) (b : List Message) (j : Nat),
      (b, j) ∈ (scanPage regex false acc i suffix).1 → b = acc.reverse ++ suffix := by
  intro suffix
  induction suffix with
  | nil =>
    intro acc i b j h
    simp [scanPage] at h
  | cons m rest ih =>
    intro acc i b j h
    cases hmt : matchText regex m with
    | none =>
      rw [scanPage, hmt] at h
      have := ih (m :: acc) (i + 1) b j h
      simpa using this
    | some tse =>
      obtain ⟨t, s, e⟩ := tse
      rw [scanPage, hmt] at h
      simp only [maybeHighlight_false, List.mem_cons] at h
      cases h with
      | inl h0 =>
        have hb : b = acc.reverse ++ m :: rest := congrArg Prod.fst h0
        exact hb
      | inr h0 =>
        have := ih (m :: acc) (i + 1) b j h0
        simpa using this

/-- Every yield produced while scanning a page points back at a message of
the original page whose text is present and matches the pattern; the
snapshot's entry at the match index is that message, rewritten with the
highlight exactly when highlighting is on. -/
theorem scanPage_yield_at (regex : String → Option (Nat × Nat)) (interactive : Bool)
    (P : List Message) :
    ∀ (suffix acc : List Message) (i : Nat),
      P.drop i = suffix → acc.length = i →
      ∀ (b : List Message) (j : Nat),
        (b, j) ∈ (scanPage regex interactive acc i suffix).1 →
        ∃ m t s e, P[j]? = some m ∧ m.text = some t ∧ regex t = some (s, e) ∧
          b[j]? = some (maybeHighlight interactive m t s e) := by
  intro suffix
  induction suffix with
  | nil =>
    intro acc i hdrop hlen b j h
    simp [scanPage] at h
  | cons m rest ih =>
    intro acc i hdrop hlen b j h
    obtain ⟨hPi, hPdrop⟩ := drop_eq_cons P i m rest hdrop
    cases hmt : matchText regex m with
    | none =>
      rw [scanPage, hmt] at h
      exact ih (m :: acc) (i + 1) hPdrop (by simpa using hlen) b j h
    | some tse =>
      obtain ⟨t, s, e⟩ := tse
      obtain ⟨hm, hr⟩ := matchText_eq_some regex m t s e hmt
      rw [scanPage, hmt] at h
      simp only [List.mem_cons] at h
      cases h with
      | inl h0 =>
        have hb : b = acc.reverse ++ maybeHighlight interactive m t s e :: rest :=
          congrArg Prod.fst h0
        have hj : j = i := congrArg Prod.snd h0
        subst hj
        refine ⟨m, t, s, e, hPi, hm, hr, ?_⟩
        rw [hb]
        have hlen2 : acc.reverse.length = j := by simpa using hlen
        rw [List.getElem?_append_right (by omega)]
        simp [hlen2]
      | inr h0 =>
        exact ih (maybeHighlight interactive m t s e :: acc)
          (i + 1) hPdrop (by simpa using hlen) b j h0

/-- Every result of the paginated search comes from scanning some page the
source returned for a cursor recorded in the fetch trace. -/
theorem search_yield_mem (fetch : Option Nat → Except String (List Message))
    (regex : String → Option (Nat × Nat)) (interactive : Bool) :
    ∀ (fuel : Nat) (c : Option Nat) (b : List Message) (i : Nat),
      (b, i) ∈ (search_messages fetch regex interactive fuel c).results →
      ∃ cp P, cp ∈ (search_messages fetch regex interactive fuel c).trace
        ∧ fetch cp = Except.ok P
        ∧ (b, i) ∈ (scanPage regex interactive [] 0 P).1 := by
  intro fuel
  induction fuel with
  | zero =>
    intro c b i h
    simp [search_messages] at h
  | succ f ih =>
    intro c b i h
    cases hf : fetch c with
    | error e =>
      simp [search_messages, hf] at h
    | ok buffer =>
      by_cases hb : buffer = []
      · subst hb
        simp [search_messages, hf] at h
      · simp only [search_messages, hf, if_neg hb] at h ⊢
        rw [List.mem_append] at h
        cases h with
        | inl h0 =>
          exact ⟨c, buffer, by simp, hf, h0⟩
        | inr h0 =>
          obtain ⟨cp, P, hcp, hP, hmem⟩ := ih _ b i h0
          exact ⟨cp, P, by simp [hcp], hP, hmem⟩

/-- Trace characterisation of the pagination loop: fed a chain of
non-empty pages keyed by oldest-id cursors and then an empty page, the
loop fetches the head page, then each successor page with the previous
oldest id as cursor, then the terminating empty page, with no error. -/
theorem search_trace_aux (fetch : Option Nat → Except String (List Message))
    (regex : String → Option (Nat × Nat)) (interactive : Bool) :
    ∀ (rem : List (List Message)) (c : Option Nat) (fuel : Nat),
      rem.length < fuel →
      (∀ p ∈ rem, p ≠ []) →
      fetch c = Except.ok (rem.headD []) →
      List.Chain' (fun p q => fetch (some (oldestId p)) = Except.ok q) rem →
      (∀ p, rem.getLast? = some p → fetch (some (oldestId p)) = Except.ok []) →
      (search_messages fetch regex interactive fuel c).trace
          = c :: rem.map (fun p => some (oldestId p))
        ∧ (search_messages fetch regex interactive fuel c).err = none := by
  intro rem
  induction rem with
  | nil =>
    intro c fuel hfuel hne hc hchain hlast
    obtain ⟨f, rfl⟩ : ∃ f, fuel = f + 1 := ⟨fuel - 1, by omega⟩
    have hc2 : fetch c = Except.ok [] := by simpa using hc
    simp [search_messages, hc2]
  | cons p rest ih =>
    intro c fuel hfuel hne hc hchain hlast
    obtain ⟨f, rfl⟩ : ∃ f, fuel = f + 1 := ⟨fuel - 1, by omega⟩
    have hp : p ≠ [] := hne p (by simp)
    have hc2 : fetch c = Except.ok p := by simpa using hc
    have hnext : fetch (some (oldestId p)) = Except.ok (rest.headD []) := by
      cases rest with
      | nil => exact hlast p (by simp)
      | cons q qs =>
        have := (List.chain'_cons.mp hchain).1
        simpa using this
    have hchain2 : List.Chain' (fun p q => fetch (some (oldestId p)) = Except.ok q) rest := by
      cases rest with
      | nil => simp
      | cons q qs => exact (List.chain'_cons.mp hchain).2
    have hlast2 : ∀ p2, rest.getLast? = some p2 →
        fetch (some (oldestId p2)) = Except.ok [] := by
      intro p2 h2
      apply hlast
      cases rest with
      | nil => simp at h2
      | cons q qs => rw [List.getLast?_cons_cons]; exact h2
    have hne2 : ∀ p2 ∈ rest, p2 ≠ [] := fun p2 hp2 => hne p2 (by simp [hp2])
    have hrec := ih (some (oldestId p)) f (by simpa using hfuel) hne2 hnext hchain2 hlast2
    constructor
    · simp only [search_messages, hc2, if_neg hp]
      rw [oldestId_scanPage, hrec.1]
      simp
    · simp only [search_messages, hc2, if_neg hp]
      rw [oldestId_scanPage]
      exact hrec.2

/-- Claim C1: for a match at index 0 of a three-message page with
after_context = 1 and before_context = 0, the specification requires the
rendered window to cover exactly index range [max(0, 0-1), min(2, 0+0)] =
[0, 0], i.e. the matched message itself; the code instead renders an empty
window, because the Python slice `buffer[-1:1]` wraps the negative start
index to the end of the page.  The matched message is silently dropped
from the output, contradicting the clamping the claim states. -/
theorem C1_window_bug :
    print_message page3msgs 0 0 1 = []
    ∧ specContextWindow page3msgs 0 0 1 = [Message.mk 5 (some "foo") "alice" 10] := by
  constructor
  · rfl
  · rfl

/-- Claim C3: `main` compiles the alternation of the text fragments into
one pattern and passes that compiled pattern when searching group
conversations (line 181); but for direct conversations (line 186) it
passes the raw fragment list `args.text` instead, on which invoking
`.search` raises an AttributeError instead of applying the compiled
pattern.  The same compiled pattern is therefore not used for both
conversation kinds. -/
theorem C3_dm_pattern_bug (r : String → Option (Nat × Nat)) (texts : List String)
    (s : String) :
    groupSearchPattern r texts = PatternArg.compiled r
    ∧ dmSearchPattern r texts = PatternArg.rawList texts
    ∧ applyPattern (groupSearchPattern r texts) s = Except.ok (r s)
    ∧ applyPattern (dmSearchPattern r texts) s =
        Except.error "AttributeError: list object has no attribute search" := by
  exact ⟨rfl, rfl, rfl, rfl⟩

/-- Claim C5: a 304 "not modified" response yields the same value as an
empty page from a successful fetch, for both the group-message fetch and
the direct-message fetch, and pagination driven by such a response
terminates after that single fetch without an error, exactly as it does on
a genuinely empty page. -/
theorem C5_not_modified (body bodyDm : List Message)
    (regex : String → Option (Nat × Nat)) (interactive : Bool) (fuel : Nat)
    (c : Option Nat) :
    get_messages 304 body = Except.ok []
    ∧ get_dm 304 bodyDm = Except.ok []
    ∧ get_messages 304 body = get_messages 200 []
    ∧ get_dm 304 bodyDm = get_dm 200 []
    ∧ search_messages (fun _ => get_messages 304 body) regex interactive (fuel + 1) c
        = ⟨[], none, [c]⟩
    ∧ search_messages (fun _ => get_messages 200 []) regex interactive (fuel + 1) c
        = ⟨[], none, [c]⟩ := by
  exact ⟨rfl, rfl, rfl, rfl, rfl, rfl⟩

/-- Claim C9, counterexample: in an environment where standard input is an
interactive terminal but the output is not, the code enables color by
default (it consults `isatty(stdin.fileno())`), while the claim requires
color to be off because the output is not an interactive terminal. -/
theorem C9_counterexample :
    (resolveColor none true = specResolveColor none false) ↔ False := by
  decide

/-- Claim C9 as amended: when neither `--color` nor `--no-color` is
supplied, color is enabled if and only if standard input is an interactive
terminal; `--color` forces color on and `--no-color` forces it off. -/
theorem C9_amended_default_color :
    (∀ stdinTty : Bool, resolveColor none stdinTty = stdinTty)
    ∧ (∀ stdinTty : Bool, resolveColor (some true) stdinTty = true)
    ∧ (∀ stdinTty : Bool, resolveColor (some false) stdinTty = false) := by
  exact ⟨fun _ => rfl, fun _ => rfl, fun _ => rfl⟩

/-- Claim C2, counterexample: for a stub source returning one non-empty
page and then the empty page (N = 1), the claim predicts exactly 1 fetch
call before termination; the search actually performs 2 fetch calls — the
loop can only learn that the history is exhausted by fetching the empty
page. -/
theorem C2_counterexample :
    ((search_messages c2cFetch rFoo false 5 none).trace.length = 1) ↔ False :=
  iff_false_intro (by decide)

/-- Claim C2 as amended: for a stub source returning N non-empty pages and
then one empty page, the search makes exactly N + 1 fetch calls — one per
non-empty page plus the final fetch that receives the empty page and
terminates pagination without error — and each fetch after the first
passes the id of the oldest (last) message of the previously fetched page
as the before_id cursor. -/
theorem C2_pagination (fetch : Option Nat → Except String (List Message))
    (pages : List (List Message)) (regex : String → Option (Nat × Nat))
    (interactive : Bool) (fuel : Nat)
    (hfuel : pages.length < fuel)
    (hne : ∀ p ∈ pages, p ≠ [])
    (hfirst : fetch none = Except.ok (pages.headD []))
    (hchain : List.Chain' (fun p q => fetch (some (oldestId p)) = Except.ok q) pages)
    (hlast : ∀ p, pages.getLast? = some p → fetch (some (oldestId p)) = Except.ok []) :
    (search_messages fetch regex interactive fuel none).trace
        = none :: pages.map (fun p => some (oldestId p))
    ∧ (search_messages fetch regex interactive fuel none).trace.length
        = pages.length + 1
    ∧ (search_messages fetch regex interactive fuel none).err = none := by
  have h := search_trace_aux fetch regex interactive pages none fuel hfuel hne hfirst
    hchain hlast
  refine ⟨h.1, ?_, h.2⟩
  rw [h.1]
  simp

/-- Witness for C2: the concrete two-page stub; the trace is the initial
cursorless fetch, then the cursor 4 (oldest id of page one), then the
cursor 3 (oldest id of page two) for the terminating empty fetch. -/
theorem C2_pagination_witness :
    (search_messages c2wFetch rFoo false 3 none).trace = [none, some 4, some 3]
    ∧ (search_messages c2wFetch rFoo false 3 none).trace.length = 2 + 1
    ∧ (search_messages c2wFetch rFoo false 3 none).err = none := by
  have h := C2_pagination c2wFetch [c2wPg1, c2wPg2] rFoo false 3
    (by decide)
    (by decide)
    rfl
    (List.chain'_pair.mpr rfl)
    (by
      intro p hp
      have h2 : some c2wPg2 = some p := hp
      rw [← Option.some.inj h2]
      rfl)
  exact h

/-- Once a conversation's search ends in a fetch error, the outer loop of
`main` reports that error after having searched only the conversations up
to and including the failing one. -/
theorem runConversations_fail (regex : String → Option (Nat × Nat))
    (interactive : Bool) (fuel : Nat) (e : String) :
    ∀ (pre : List (Option Nat → Except String (List Message)))
      (src : Option Nat → Except String (List Message))
      (post : List (Option Nat → Except String (List Message))),
      (∀ s ∈ pre, (search_messages s regex interactive fuel none).err = none) →
      (search_messages src regex interactive fuel none).err = some e →
      (runConversations regex interactive fuel (pre ++ src :: post)).err = some e
      ∧ (runConversations regex interactive fuel (pre ++ src :: post)).searched
          = pre.length + 1 := by
  intro pre
  induction pre with
  | nil =>
    intro src post hpre hsrc
    rw [List.nil_append]
    constructor
    · simp only [runConversations, hsrc]
    · simp only [runConversations, hsrc]
      simp
  | cons s0 pre ih =>
    intro src post hpre hsrc
    have h0 : (search_messages s0 regex interactive fuel none).err = none :=
      hpre s0 (by simp)
    have hrest := ih src post (fun s hs => hpre s (by simp [hs])) hsrc
    rw [List.cons_append]
    constructor
    · simp only [runConversations, h0]
      exact hrest.1
    · simp only [runConversations, h0]
      rw [hrest.2]
      simp

/-- Claim C4: a fetch whose status is outside the success range and not
304 raises an error; when a fetch errors the engine stops at once — that
fetch is the only one recorded, no results follow, the error is propagated
to the caller — and once one conversation's search fails, only the
conversations up to and including the failing one were searched: none of
the later ones is ever attempted. -/
theorem C4_fail_fast (status : Nat) (body : List Message)
    (hs1 : ¬ (200 ≤ status ∧ status < 300)) (hs2 : status ≠ 304)
    (fetch : Option Nat → Except String (List Message))
    (regex : String → Option (Nat × Nat)) (interactive : Bool)
    (fuel fuel2 : Nat) (c : Option Nat) (e : String)
    (hf : fetch c = Except.error e)
    (pre post : List (Option Nat → Except String (List Message)))
    (src : Option Nat → Except String (List Message))
    (hpre : ∀ s ∈ pre, (search_messages s regex interactive fuel2 none).err = none)
    (hsrc : (search_messages src regex interactive fuel2 none).err = some e) :
    get status body = Except.error "Got bad status code"
    ∧ search_messages fetch regex interactive (fuel + 1) c
        = ⟨[], some e, [c]⟩
    ∧ (runConversations regex interactive fuel2 (pre ++ src :: post)).err = some e
    ∧ (runConversations regex interactive fuel2 (pre ++ src :: post)).searched
        = pre.length + 1 := by
  refine ⟨?_, ?_, ?_, ?_⟩
  · simp [get, hs1, hs2]
  · rw [search_messages, hf]
  · exact (runConversations_fail regex interactive fuel2 e pre src post hpre hsrc).1
  · exact (runConversations_fail regex interactive fuel2 e pre src post hpre hsrc).2

/-- Witness for C4: status 404 raises, a failing source stops the search
at its first fetch, and with conversations [good, bad, good] the run ends
in the error after searching only the first two. -/
theorem C4_fail_fast_witness :
    get 404 ([] : List Message) = Except.error "Got bad status code"
    ∧ search_messages c4BadSrc rFoo false 1 none
        = ⟨[], some "Got bad status code", [none]⟩
    ∧ (runConversations rFoo false 1 ([c4GoodSrc] ++ c4BadSrc :: [c4GoodSrc])).err
        = some "Got bad status code"
    ∧ (runConversations rFoo false 1 ([c4GoodSrc] ++ c4BadSrc :: [c4GoodSrc])).searched
        = [c4GoodSrc].length + 1 := by
  exact C4_fail_fast 404 [] (by decide) (by decide) c4BadSrc rFoo false 0 1 none
    "Got bad status code" rfl [c4GoodSrc] [c4GoodSrc] c4BadSrc
    (by
      intro s hs
      rw [List.mem_singleton] at hs
      subst hs
      rfl)
    rfl

/-- Claim C6: a message whose text field is absent is never yielded as a
match: every yielded (page, index) pair points, in the page the source
returned, at a message whose text is present and in which the pattern
found a span; the snapshot's entry at the match index is that message
(highlighted when interactive). -/
theorem C6_absent_text_skipped (fetch : Option Nat → Except String (List Message))
    (regex : String → Option (Nat × Nat)) (interactive : Bool) (fuel : Nat)
    (c : Option Nat) (b : List Message) (i : Nat)
    (hmem : (b, i) ∈ (search_messages fetch regex interactive fuel c).results) :
    ∃ cp P m t s e,
      cp ∈ (search_messages fetch regex interactive fuel c).trace
      ∧ fetch cp = Except.ok P
      ∧ P[i]? = some m
      ∧ m.text = some t
      ∧ regex t = some (s, e)
      ∧ b[i]? = some (maybeHighlight interactive m t s e) := by
  obtain ⟨cp, P, hcp, hP, hscan⟩ :=
    search_yield_mem fetch regex interactive fuel c b i hmem
  obtain ⟨m, t, s, e, hPi, hm, hr, hbi⟩ :=
    scanPage_yield_at regex interactive P P [] 0 (by simp) rfl b i hscan
  exact ⟨cp, P, m, t, s, e, hcp, hP, hPi, hm, hr, hbi⟩

/-- Witness for C6: a page with a matching message at index 0 and a
textless upload at index 1 yields exactly the match at index 0, whose
text is present. -/
theorem C6_witness :
    ∃ cp P m t s e,
      cp ∈ (search_messages c6Fetch rFoo false 2 none).trace
      ∧ c6Fetch cp = Except.ok P
      ∧ P[0]? = some m
      ∧ m.text = some t
      ∧ rFoo t = some (s, e)
      ∧ ([Message.mk 5 (some "foo") "alice" 10, Message.mk 4 none "bob" 11])[0]?
          = some (maybeHighlight false m t s e) := by
  exact C6_absent_text_skipped c6Fetch rFoo false 2 none
    [Message.mk 5 (some "foo") "alice" 10, Message.mk 4 none "bob" 11] 0 (by decide)

/-- Claim C7: for an enumeration source with two pages of 100 records and
then an empty page, the enumerator makes exactly 3 fetch calls (the first
with no page number, which the API defaults to page 1, then pages 2 and
3), yields exactly 200 conversations, and terminates at the first empty
page. -/
theorem C7_enumeration (fetch : Nat → Option Nat → List Conv) (p1 p2 : List Conv)
    (fuel : Nat)
    (h1 : fetch 100 none = p1) (hl1 : p1.length = 100)
    (h2 : fetch 100 (some 2) = p2) (hl2 : p2.length = 100)
    (h3 : fetch 100 (some 3) = [])
    (hfuel : 3 ≤ fuel) :
    (get_all_groups fetch fuel).1.length = 200
    ∧ (get_all_groups fetch fuel).2 = [none, some 2, some 3]
    ∧ (get_all_groups fetch fuel).2.length = 3 := by
  obtain ⟨f, rfl⟩ : ∃ f, fuel = f + 3 := ⟨fuel - 3, by omega⟩
  have hp1 : p1 ≠ [] := by
    intro h
    rw [h] at hl1
    simp at hl1
  have hp2 : p2 ≠ [] := by
    intro h
    rw [h] at hl2
    simp at hl2
  have e3 : groupsLoop fetch (f + 1) 3 (fetch 100 (some 3)) = ([], []) := by
    rw [h3, groupsLoop]
    simp
  have e2 : groupsLoop fetch (f + 2) 2 (fetch 100 (some 2)) = (p2 ++ [], [some 3]) := by
    rw [h2, show f + 2 = (f + 1) + 1 from rfl, groupsLoop, if_neg hp2]
    norm_num
    rw [e3]
    simp
  have e1 : groupsLoop fetch (f + 3) 1 p1
      = (p1 ++ (p2 ++ []), [some 2, some 3]) := by
    rw [show f + 3 = (f + 2) + 1 from rfl, groupsLoop, if_neg hp1]
    norm_num
    rw [e2]
    simp
  refine ⟨?_, ?_, ?_⟩
  · simp only [get_all_groups]
    rw [h1, e1]
    simp [hl1, hl2]
  · simp only [get_all_groups]
    rw [h1, e1]
  · simp only [get_all_groups]
    rw [h1, e1]
    simp

/-- Witness for C7: the concrete stub with two pages of 100 conversations
each. -/
theorem C7_enumeration_witness :
    (get_all_groups c7Fetch 3).1.length = 200
    ∧ (get_all_groups c7Fetch 3).2 = [none, some 2, some 3]
    ∧ (get_all_groups c7Fetch 3).2.length = 3 := by
  exact C7_enumeration c7Fetch (List.replicate 100 c7Conv) (List.replicate 100 c7Conv) 3
    (by simp [c7Fetch]) (by simp) (by simp [c7Fetch]) (by simp) (by simp [c7Fetch])
    (by omega)

/-- The pre-parse scan fires on the first `--list`/`-l` argument that is
neither preceded by `--group` nor behind a `--` separator. -/
theorem listScan_append (flag : String) (post : List String)
    (hflag : flag = "--list" ∨ flag = "-l") :
    ∀ (pre : List String) (prev : Option String),
      "--" ∉ pre →
      (pre = [] → prev ≠ some "--group") →
      (∀ x, pre.getLast? = some x → x ≠ "--group") →
      listScan prev (pre ++ flag :: post) = true := by
  intro pre
  induction pre with
  | nil =>
    intro prev hdd h0 hlast
    have hprev : prev ≠ some "--group" := h0 rfl
    rcases hflag with rfl | rfl
    · rw [List.nil_append, listScan, if_neg (by decide), if_pos ⟨Or.inl rfl, hprev⟩]
    · rw [List.nil_append, listScan, if_neg (by decide), if_pos ⟨Or.inr rfl, hprev⟩]
  | cons a pre ih =>
    intro prev hdd h0 hlast
    have ha : a ≠ "--" := by
      intro h
      exact hdd (by simp [h])
    have hdd2 : "--" ∉ pre := fun h => hdd (by simp [h])
    rw [List.cons_append, listScan, if_neg ha]
    by_cases hc : (a = "--list" ∨ a = "-l") ∧ prev ≠ some "--group"
    · rw [if_pos hc]
    · rw [if_neg hc]
      apply ih (some a) hdd2
      · intro hpre hcontra
        subst hpre
        exact hlast a (by simp) (Option.some.inj hcontra)
      · intro x hx
        apply hlast
        cases pre with
        | nil => simp at hx
        | cons b bs =>
          rw [List.getLast?_cons_cons]
          exact hx

/-- Claim C8: when `--list` or `-l` is supplied as a flag (not behind the
`--` separator and not as the value of `--group`), `main` prints every
conversation name and exits with code 0 before any other argument
processing — the argument parser is never constructed. -/
theorem C8_list_flag (pre post : List String) (flag : String) (convs : List Conv)
    (hflag : flag = "--list" ∨ flag = "-l")
    (hdd : "--" ∉ pre)
    (hlast : pre.getLast? ≠ some "--group") :
    mainEarlyPhase (pre ++ flag :: post) convs = some (convs.map Conv.name, 0) := by
  have h : listTriggered (pre ++ flag :: post) = true := by
    apply listScan_append flag post hflag pre none hdd
    · intro _
      simp
    · intro x hx h2
      subst h2
      exact hlast hx
  simp [mainEarlyPhase, h]

/-- Witness for C8: invoking the program as `grepme -l` prints the group
names and exits 0. -/
theorem C8_list_flag_witness :
    mainEarlyPhase ["grepme", "-l"] [Conv.mk "42" "ACM"] = some (["ACM"], 0) := by
  exact C8_list_flag ["grepme"] [] "-l" [Conv.mk "42" "ACM"]
    (Or.inr rfl) (by decide) (by decide)

/-- Claim C10: with color highlighting off the search never modifies the
fetched pages — every yielded pair carries a page exactly as the source
returned it — and with highlighting on the matched message's text is
rewritten in place with the color codes around the first match span, all
other fields untouched. -/
theorem C10_page_not_mutated (fetch : Option Nat → Except String (List Message))
    (regex : String → Option (Nat × Nat)) (fuel : Nat) (c : Option Nat) :
    (∀ b i, (b, i) ∈ (search_messages fetch regex false fuel c).results →
      ∃ cp, cp ∈ (search_messages fetch regex false fuel c).trace
        ∧ fetch cp = Except.ok b)
    ∧ (∀ b i, (b, i) ∈ (search_messages fetch regex true fuel c).results →
      ∃ cp P m t s e,
        cp ∈ (search_messages fetch regex true fuel c).trace
        ∧ fetch cp = Except.ok P
        ∧ P[i]? = some m
        ∧ m.text = some t
        ∧ regex t = some (s, e)
        ∧ b[i]? = some (Message.mk m.id (some (highlight t s e)) m.name m.created_at)) := by
  constructor
  · intro b i hmem
    obtain ⟨cp, P, hcp, hP, hscan⟩ := search_yield_mem fetch regex false fuel c b i hmem
    have hb : b = List.reverse [] ++ P := scanPage_false_yield regex P [] 0 b i hscan
    simp only [List.reverse_nil, List.nil_append] at hb
    subst hb
    exact ⟨cp, hcp, hP⟩
  · intro b i hmem
    obtain ⟨cp, P, hcp, hP, hscan⟩ := search_yield_mem fetch regex true fuel c b i hmem
    obtain ⟨m, t, s, e, hPi, hm, hr, hbi⟩ :=
      scanPage_yield_at regex true P P [] 0 (by simp) rfl b i hscan
    rw [maybeHighlight_true] at hbi
    exact ⟨cp, P, m, t, s, e, hcp, hP, hPi, hm, hr, hbi⟩

/-- Witness for C10: on a one-page stub, the non-interactive run yields
the fetched page unchanged, and the interactive run yields the page with
the matched text wrapped in the color escape codes. -/
theorem C10_witness :
    (∃ cp, cp ∈ (search_messages c10Fetch rFoo false 2 none).trace
      ∧ c10Fetch cp = Except.ok [Message.mk 5 (some "foo") "alice" 10])
    ∧ (∃ cp P m t s e,
        cp ∈ (search_messages c10Fetch rFoo true 2 none).trace
        ∧ c10Fetch cp = Except.ok P
        ∧ P[0]? = some m
        ∧ m.text = some t
        ∧ rFoo t = some (s, e)
        ∧ ([Message.mk 5 (some (highlight "foo" 0 3)) "alice" 10])[0]?
            = some (Message.mk m.id (some (highlight t s e)) m.name m.created_at)) := by
  constructor
  · exact (C10_page_not_mutated c10Fetch rFoo 2 none).1
      [Message.mk 5 (some "foo") "alice" 10] 0 (by decide)
  · exact (C10_page_not_mutated c10Fetch rFoo 2 none).2
      [Message.mk 5 (some (highlight "foo" 0 3)) "alice" 10] 0 (by decide)

end Grepme
